import Mathlib

/-!
# Verification of the `cms-loader.js` content-loading/caching layer

A shallow embedding of the content loader in `src/js/cms-loader.js`:
JavaScript values are modelled by the inductive type `Value` (with JS
truthiness), the in-memory cache (`this.cache`, a plain object keyed by
string) by an association list, and the network / external-library
collaborators (`fetch`, the directory listing, `js-yaml`, `marked`) by an
explicit environment record `Env`.  Each loader method becomes a pure
function threading the cache state; `Date.now()` becomes an explicit
`now : Nat` argument (milliseconds).  Asynchrony is modelled sequentially:
the scripts run on a single thread and every claim under study concerns
the value/cache outcome of complete calls.
-/

set_option autoImplicit false

namespace CMSLoader

/-- A JavaScript value, as far as the loader inspects values: `null`,
`undefined`, booleans, numbers, strings, arrays and plain objects
(association lists of own enumerable properties, in insertion order). -/
inductive Value where
  | vNull : Value
  | vUndef : Value
  | vBool : Bool → Value
  | vNum : Int → Value
  | vStr : String → Value
  | vArr : List Value → Value
  | vObj : List (String × Value) → Value

/-- JS truthiness, used by the source's `if (cached)`, `if (!content)` and
`result.value` checks. -/
def truthy : Value → Bool
  | Value.vNull => false
  | Value.vUndef => false
  | Value.vBool b => b
  | Value.vNum n => n != 0
  | Value.vStr s => s != ""
  | Value.vArr _ => true
  | Value.vObj _ => true

/-- One cache slot: `{data, timestamp: Date.now()}` as written by `setCached`. -/
structure CacheEntry where
  data : Value
  timestamp : Nat

/-- Model of `this.cache`: a string-keyed object, modelled as an association list in
which the first binding of a key is the live one. -/
abbrev Cache := List (String × CacheEntry)

/-- Property lookup `this.cache[key]` (`undefined`, i.e. `none`, if absent). -/
def lookupKey : Cache → String → Option CacheEntry
  | [], _ => none
  | (k, e) :: rest, key => if k = key then some e else lookupKey rest key

/-- Deletion `delete this.cache[key]`: removes every binding of the key. -/
def eraseKey (key : String) : Cache → Cache
  | [] => []
  | (k, e) :: rest => if k = key then eraseKey key rest else (k, e) :: eraseKey key rest

/-- The TTL `this.cacheTime = 5 * 60 * 1000` (milliseconds). -/
def cacheTime : Nat := 5 * 60 * 1000

/-- Model of `getCached(key)` from the source: on a present entry compute
`age = Date.now() - item.timestamp`; if `age > this.cacheTime` delete the
entry and return `null`, else return `item.data`.  Returns the value
together with the cache left behind by the read. -/
def getCached (now : Nat) (cache : Cache) (key : String) : Value × Cache :=
  match lookupKey cache key with
  | none => (Value.vNull, cache)
  | some item =>
    if (now : Int) - (item.timestamp : Int) > (cacheTime : Int) then
      (Value.vNull, eraseKey key cache)
    else
      (item.data, cache)

/-- Model of `setCached(key, data)`: `this.cache[key] = {data, timestamp: Date.now()}`
(overwrites any existing binding of the key). -/
def setCached (now : Nat) (cache : Cache) (key : String) (data : Value) : Cache :=
  (key, ⟨data, now⟩) :: eraseKey key cache

theorem lookupKey_eraseKey (key : String) (cache : Cache) :
    lookupKey (eraseKey key cache) key = none := by
  induction cache with
  | nil => rfl
  | cons p rest ih =>
    obtain ⟨k, e⟩ := p
    by_cases h : k = key
    · simp [eraseKey, h, ih]
    · simp [eraseKey, lookupKey, h, ih]

theorem lookupKey_setCached (now : Nat) (cache : Cache) (key : String) (data : Value) :
    lookupKey (setCached now cache key data) key = some ⟨data, now⟩ := by
  simp [setCached, lookupKey]

/-- The characters of `'---\n'`, the opening delimiter required by the frontmatter regex
`^---\n([\s\S]*?)\n---\n([\s\S]*)$`. -/
def fmOpen : List Char := ['-', '-', '-', '\n']

/-- The characters of `'\n---\n'`, the closing delimiter of the frontmatter regex. -/
def fmMarker : List Char := ['\n', '-', '-', '-', '\n']

/-- Splits a character list at the first occurrence of `fmMarker`, returning
the part before it and the part after it.  This realises the lazy group
`([\s\S]*?)\n---\n` of the source regex: the capture ends at the first
closing delimiter. -/
def findMarker : List Char → Option (List Char × List Char)
  | [] => none
  | c :: cs =>
    if fmMarker.isPrefixOf (c :: cs) then
      some ([], (c :: cs).drop fmMarker.length)
    else
      match findMarker cs with
      | some (pre, post) => some (c :: pre, post)
      | none => none

theorem findMarker_sound (cs : List Char) (pre post : List Char)
    (h : findMarker cs = some (pre, post)) : cs = pre ++ fmMarker ++ post := by
  induction cs generalizing pre post with
  | nil => simp [findMarker] at h
  | cons c cs ih =>
    by_cases hp : fmMarker.isPrefixOf (c :: cs)
    · rw [findMarker, if_pos hp] at h
      obtain ⟨t, ht⟩ := List.isPrefixOf_iff_prefix.mp hp
      obtain ⟨rfl, rfl⟩ : pre = [] ∧ post = (c :: cs).drop fmMarker.length := by
        simpa using h.symm
      rw [← ht, List.drop_left]
      simp [← ht]
    · rw [findMarker, if_neg hp] at h
      cases hm : findMarker cs with
      | none => rw [hm] at h; exact absurd h (by simp)
      | some pq =>
        obtain ⟨p, q⟩ := pq
        rw [hm] at h
        obtain ⟨rfl, rfl⟩ : c :: p = pre ∧ q = post := by simpa using h
        simpa using ih p q hm

theorem findMarker_complete (a b : List Char) :
    (findMarker (a ++ fmMarker ++ b)).isSome := by
  induction a with
  | nil =>
    have hp : fmMarker.isPrefixOf (fmMarker ++ b) :=
      List.isPrefixOf_iff_prefix.mpr ⟨b, rfl⟩
    rw [List.nil_append]
    cases hm : fmMarker ++ b with
    | nil => simp [fmMarker] at hm
    | cons c cs => rw [findMarker, if_pos (hm ▸ hp)]; rfl
  | cons c a ih =>
    rw [List.cons_append, List.cons_append, findMarker]
    by_cases hp : fmMarker.isPrefixOf (c :: (a ++ fmMarker ++ b))
    · rw [if_pos hp]; rfl
    · rw [if_neg hp]
      cases hm : findMarker (a ++ fmMarker ++ b) with
      | none => rw [hm] at ih; simp at ih
      | some pq => cases pq; rfl

/-- The record returned by `parseFrontmatter`. -/
structure FMResult where
  frontmatter : Value
  body : String
  error : Option String

/-- The `try { jsyaml.load } catch { {} }` pattern: the deserialized value,
degraded to an empty object when the deserializer throws. -/
def yamlOrEmpty (yaml : String → Except Unit Value) (s : String) : Value :=
  match yaml s with
  | Except.ok v => v
  | Except.error _ => Value.vObj []

/-- Model of `parseFrontmatter(content)` from the source.  The external `js-yaml`
collaborator is the explicit argument `yaml` (`Except.error` models a thrown
deserialization error).  The regex match succeeds exactly when the text
starts with `---\n` and a `\n---\n` occurs later; the lazy group captures up
to the first such occurrence. -/
def parseFrontmatter (yaml : String → Except Unit Value) (content : String) : FMResult :=
  if fmOpen.isPrefixOf content.data then
    match findMarker (content.data.drop 4) with
    | some (pre, post) => ⟨yamlOrEmpty yaml (String.mk pre), String.mk post, none⟩
    | none => ⟨Value.vObj [], content, some "Invalid frontmatter format"⟩
  else ⟨Value.vObj [], content, some "Invalid frontmatter format"⟩

/-- Models the external `js-yaml` collaborator on the single block used in
the spec's round-trip example: `title: Hello` deserializes to
`{title: "Hello"}`. -/
def yamlTitleHello : String → Except Unit Value := fun s =>
  if s = "title: Hello" then Except.ok (Value.vObj [("title", Value.vStr "Hello")])
  else Except.error ()

/-- The external collaborators of the loader: `fetch` (a fetched text, or
`null` on network/HTTP failure, as in `fetchFile`), the directory-listing
scrape used by `listFiles` (already reduced to the entry names it yields, an
empty list on any failure), the `js-yaml` deserializer (`Except.error`
models a throw, including `jsyaml` being undefined), and the optional
`marked` renderer (`none` when the library is unavailable; an inner `none`
models a thrown rendering error). -/
structure Env where
  fetchFile : String → Option String
  listFiles : String → List String
  yamlLoad : String → Except Unit Value
  marked : Option (String → Option String)

/-- Model of `parseMarkdown(content)`: the input itself when `marked` is undefined or
throws, otherwise the rendered output. -/
def parseMarkdown (env : Env) (content : String) : String :=
  match env.marked with
  | none => content
  | some f => (f content).getD content

/-- The base URL `this.baseUrl = '/content/'`. -/
def baseUrl : String := "/content/"

/-- The document path `${this.baseUrl}${collection}/${slug}.md`. -/
def contentPath (collection slug : String) : String :=
  baseUrl ++ collection ++ "/" ++ slug ++ ".md"

/-- Property read `o.k` on an object's field list (`none` = `undefined`). -/
def objGet (fs : List (String × Value)) (k : String) : Option Value :=
  match fs.find? (fun p => p.1 == k) with
  | some p => some p.2
  | none => none

/-- Property write in an object literal: a later `k: v` entry overwrites an
existing key in place and appends a new key at the end. -/
def objSet : List (String × Value) → String → Value → List (String × Value)
  | [], k, v => [(k, v)]
  | (k', v') :: rest, k, v =>
    if k' == k then (k, v) :: rest else (k', v') :: objSet rest k v

/-- Object-literal spread `{...x}`: the own enumerable properties of `x`
(fields of an object, index keys of an array or string, nothing for
`null`/`undefined`/numbers/booleans). -/
def spreadFields : Value → List (String × Value)
  | Value.vObj fs => fs
  | Value.vArr vs => vs.enum.map (fun p => (toString p.1, p.2))
  | Value.vStr s => s.data.enum.map (fun p => (toString p.1, Value.vStr (String.mk [p.2])))
  | _ => []

/-- The ContentRecord literal of `loadContent`:
`{...parsed.frontmatter, body, rawBody, collection, slug}` — frontmatter
fields first, then the four derived fields in source order. -/
def buildRecord (fm : Value) (htmlBody rawBody collection slug : String) : Value :=
  Value.vObj
    (objSet (objSet (objSet (objSet (spreadFields fm)
      "body" (Value.vStr htmlBody))
      "rawBody" (Value.vStr rawBody))
      "collection" (Value.vStr collection))
      "slug" (Value.vStr slug))

/-- Model of `loadContent(collection, slug)`.  `Value.vNull` is the `null` the source
returns for an absent document. -/
def loadContent (env : Env) (now : Nat) (cache : Cache) (collection slug : String) :
    Value × Cache :=
  let cacheKey := collection ++ ":" ++ slug
  let g := getCached now cache cacheKey
  if truthy g.1 then g
  else
    match env.fetchFile (contentPath collection slug) with
    | none => (Value.vNull, g.2)
    | some content =>
      if content = "" then (Value.vNull, g.2)
      else
        let parsed := parseFrontmatter env.yamlLoad content
        match parsed.error with
        | some _ => (Value.vNull, g.2)
        | none =>
          let result := buildRecord parsed.frontmatter
            (parseMarkdown env parsed.body) parsed.body collection slug
          (result, setCached now g.2 cacheKey result)

/-- The characters of the pattern `'.md'`. -/
def mdPat : List Char := ['.', 'm', 'd']

/-- The filter `file.endsWith('.md')` of `loadCollection`, at the character
level. -/
def endsWithMd (file : String) : Bool :=
  mdPat.isSuffixOf file.data

/-- The slug derivation `file.replace('.md', '')` of `loadCollection`:
JavaScript `String.replace` with a string pattern replaces only the FIRST
occurrence of the pattern (here with the empty string). -/
def replaceFirstL (pat repl : List Char) : List Char → List Char
  | [] => if pat.isEmpty then repl else []
  | c :: cs =>
    if pat.isPrefixOf (c :: cs) then repl ++ (c :: cs).drop pat.length
    else c :: replaceFirstL pat repl cs

/-- The slug derivation `file.replace('.md', '')`, the slug `loadCollection` loads each kept
file under. -/
def collectionSlug (file : String) : String :=
  String.mk (replaceFirstL mdPat [] file.data)

/-- The per-document loads of `loadCollection` (its `.map(loadContent)` +
`Promise.allSettled`), in directory-listing order.  The page runs on a
single thread, and each document's result depends only on its own fetch, so
the settled results are modelled by running the loads in listing order while
threading the shared cache.  `loadContent` never rejects (every failure is
absorbed into a `null` result), so each list element is one fulfilled
`result.value`. -/
def collectionFold (env : Env) (now : Nat) (collection : String) :
    List String → Cache → List Value × Cache
  | [], cache => ([], cache)
  | file :: rest, cache =>
    let r := loadContent env now cache collection (collectionSlug file)
    let rs := collectionFold env now collection rest r.2
    (r.1 :: rs.1, rs.2)

/-- The filter `item.active !== false`: only a value whose `active` property
is literally the boolean `false` is dropped (a missing `active`, `true`, or
any non-boolean value is kept). -/
def activeNotFalse (item : Value) : Bool :=
  match item with
  | Value.vObj fs =>
    match objGet fs "active" with
    | some (Value.vBool false) => false
    | _ => true
  | _ => true

/-- The settled-results pipeline of `loadCollection`: keep the fulfilled
results whose `result.value` is truthy (the successfully loaded records —
failures settled as `null`), then drop any with `active: false`. -/
def settledItems (results : List Value) : List Value :=
  (results.filter truthy).filter activeNotFalse

/-- Model of `loadCollection(collection)`. -/
def loadCollection (env : Env) (now : Nat) (cache : Cache) (collection : String) :
    Value × Cache :=
  let cacheKey := "collection:" ++ collection
  let g := getCached now cache cacheKey
  if truthy g.1 then g
  else
    let files := env.listFiles (baseUrl ++ collection ++ "/")
    let fold := collectionFold env now collection (files.filter endsWithMd) g.2
    let items := settledItems fold.1
    (Value.vArr items, setCached now fold.2 cacheKey (Value.vArr items))

/-- The settings path `${this.baseUrl}settings/global.yml`. -/
def settingsPath : String := baseUrl ++ "settings/global.yml"

/-- Model of `loadSettings()`. -/
def loadSettings (env : Env) (now : Nat) (cache : Cache) : Value × Cache :=
  let g := getCached now cache "settings:global"
  if truthy g.1 then g
  else
    match env.fetchFile settingsPath with
    | none => (Value.vNull, g.2)
    | some content =>
      if content = "" then (Value.vNull, g.2)
      else
        let settings := yamlOrEmpty env.yamlLoad content
        (settings, setCached now g.2 "settings:global" settings)

/-- C1: a `getCached` read of a present entry whose age exceeds the TTL of
300000 ms deletes that entry and returns `null` (absent); a read whose age is
at most the TTL returns the stored value itself, unchanged, and leaves the
cache untouched. -/
theorem getCached_ttl (cache : Cache) (key : String) (e : CacheEntry)
    (nowStale nowFresh : Nat)
    (hlook : lookupKey cache key = some e)
    (hstale : (nowStale : Int) - (e.timestamp : Int) > (cacheTime : Int))
    (hfresh : (nowFresh : Int) - (e.timestamp : Int) ≤ (cacheTime : Int)) :
    getCached nowStale cache key = (Value.vNull, eraseKey key cache)
    ∧ lookupKey (getCached nowStale cache key).2 key = none
    ∧ getCached nowFresh cache key = (e.data, cache) := by
  refine ⟨?_, ?_, ?_⟩
  · simp [getCached, hlook, hstale]
  · simp [getCached, hlook, hstale, lookupKey_eraseKey]
  · simp [getCached, hlook, not_lt.mpr hfresh]

/-- Witness for C1 at a concrete cache: an entry stored at time 100 is
evicted when read at time 500000 and returned intact when read at time 200. -/
theorem getCached_ttl_witness :
    getCached 500000 [("k", ⟨Value.vStr "v", 100⟩)] "k"
      = (Value.vNull, eraseKey "k" [("k", ⟨Value.vStr "v", 100⟩)])
    ∧ lookupKey (getCached 500000 [("k", ⟨Value.vStr "v", 100⟩)] "k").2 "k" = none
    ∧ getCached 200 [("k", ⟨Value.vStr "v", 100⟩)] "k"
      = (Value.vStr "v", [("k", ⟨Value.vStr "v", 100⟩)]) :=
  getCached_ttl [("k", ⟨Value.vStr "v", 100⟩)] "k" ⟨Value.vStr "v", 100⟩
    500000 200 rfl (by decide) (by decide)

/-- C2: for every input, `parseFrontmatter` either (a) fails the
`---`-delimited pattern and returns an empty frontmatter, the whole input as
body and the error `"Invalid frontmatter format"`, or (b) matches, and
returns the deserialized block as frontmatter (empty object when the
deserializer throws), the remainder after the closing delimiter as body, and
no error; in particular `"---\ntitle: Hello\n---\nBody text"` parses to
frontmatter `{title: "Hello"}` and body `"Body text"`. -/
theorem parseFrontmatter_spec (yaml : String → Except Unit Value) (content : String) :
    (((¬ ∃ a b : String, content = "---\n" ++ a ++ "\n---\n" ++ b) ∧
        parseFrontmatter yaml content
          = ⟨Value.vObj [], content, some "Invalid frontmatter format"⟩)
      ∨ (∃ a b : String, content = "---\n" ++ a ++ "\n---\n" ++ b ∧
          parseFrontmatter yaml content = ⟨yamlOrEmpty yaml a, b, none⟩))
    ∧ parseFrontmatter yamlTitleHello "---\ntitle: Hello\n---\nBody text"
        = ⟨Value.vObj [("title", Value.vStr "Hello")], "Body text", none⟩ := by
  have hopen : ("---\n" : String).data = fmOpen := by decide
  have hclose : ("\n---\n" : String).data = fmMarker := by decide
  constructor
  · by_cases hp : fmOpen.isPrefixOf content.data
    · cases hm : findMarker (content.data.drop 4) with
      | some pq =>
        obtain ⟨pre, post⟩ := pq
        right
        refine ⟨String.mk pre, String.mk post, ?_, ?_⟩
        · apply String.ext
          obtain ⟨t, ht⟩ := List.isPrefixOf_iff_prefix.mp hp
          have h4 : fmOpen.length = 4 := rfl
          have hdrop : content.data.drop 4 = t := by
            rw [← ht, ← h4, List.drop_left]
          have hsound := findMarker_sound _ _ _ hm
          rw [hdrop] at hsound
          simp only [String.data_append, hopen, hclose]
          rw [← ht, hsound]
          simp [fmOpen, fmMarker]
        · simp [parseFrontmatter, hp, hm]
      | none =>
        left
        constructor
        · rintro ⟨a, b, habs⟩
          have hdata : content.data.drop 4 = a.data ++ fmMarker ++ b.data := by
            rw [habs]
            simp [String.data_append, fmMarker, List.append_assoc]
          rw [hdata] at hm
          have hiss := findMarker_complete a.data b.data
          rw [hm] at hiss
          simp at hiss
        · simp [parseFrontmatter, hp, hm]
    · left
      constructor
      · rintro ⟨a, b, habs⟩
        apply hp
        apply List.isPrefixOf_iff_prefix.mpr
        refine ⟨a.data ++ fmMarker ++ b.data, ?_⟩
        rw [habs]
        simp [String.data_append, fmOpen, fmMarker, List.append_assoc]
      · simp [parseFrontmatter, hp]
  · rfl

theorem getCached_miss_persists (now now' : Nat) (cache : Cache) (key : String)
    (hmiss : truthy (getCached now cache key).1 = false) :
    truthy (getCached now' (getCached now cache key).2 key).1 = false := by
  cases hl : lookupKey cache key with
  | none => simp [getCached, hl, truthy]
  | some e =>
    by_cases hage : (now : Int) - (e.timestamp : Int) > (cacheTime : Int)
    · simp [getCached, hl, hage, lookupKey_eraseKey, truthy]
    · simp only [getCached, hl, if_neg hage] at hmiss ⊢
      by_cases hage' : (now' : Int) - (e.timestamp : Int) > (cacheTime : Int)
      · simp [hage', truthy]
      · simp [hage', hmiss]

/-- C3: with no live cache entry for the document key, a failed fetch or a
frontmatter-format error makes `loadContent` return `null` and write
nothing: the final cache is exactly what the initial `getCached` read left
behind, and a read of the key at any later time still misses, so a
subsequent call re-attempts the fetch. -/
theorem loadContent_failure_no_cache (env : Env) (now : Nat) (cache : Cache)
    (collection slug : String)
    (hmiss : truthy (getCached now cache (collection ++ ":" ++ slug)).1 = false)
    (hfail : env.fetchFile (contentPath collection slug) = none
      ∨ ∃ t, env.fetchFile (contentPath collection slug) = some t
          ∧ (parseFrontmatter env.yamlLoad t).error ≠ none) :
    (loadContent env now cache collection slug).1 = Value.vNull
    ∧ (loadContent env now cache collection slug).2
        = (getCached now cache (collection ++ ":" ++ slug)).2
    ∧ ∀ now' : Nat,
        truthy (getCached now' (loadContent env now cache collection slug).2
          (collection ++ ":" ++ slug)).1 = false := by
  have hload : loadContent env now cache collection slug
      = (Value.vNull, (getCached now cache (collection ++ ":" ++ slug)).2) := by
    rcases hfail with hnone | ⟨t, ht, herr⟩
    · simp [loadContent, hmiss, hnone]
    · cases he : (parseFrontmatter env.yamlLoad t).error with
      | none => exact absurd he herr
      | some msg =>
        by_cases hts : t = ""
        · simp [loadContent, hmiss, ht, hts]
        · simp [loadContent, hmiss, ht, hts, he]
  refine ⟨by rw [hload], by rw [hload], ?_⟩
  intro now'
  rw [hload]
  exact getCached_miss_persists now now' cache _ hmiss

/-- An environment in which every fetch fails, every listing is empty, the
deserializer throws and the renderer is absent. -/
def downEnv : Env :=
  { fetchFile := fun _ => none
    listFiles := fun _ => []
    yamlLoad := fun _ => Except.error ()
    marked := none }

/-- Witness for C3: loading `services/a` against an empty cache with a
failing fetch yields `null` and leaves the cache alone. -/
theorem loadContent_failure_no_cache_witness :
    (loadContent downEnv 0 [] "services" "a").1 = Value.vNull
    ∧ (loadContent downEnv 0 [] "services" "a").2
        = (getCached 0 [] ("services" ++ ":" ++ "a")).2
    ∧ ∀ now' : Nat,
        truthy (getCached now' (loadContent downEnv 0 [] "services" "a").2
          ("services" ++ ":" ++ "a")).1 = false :=
  loadContent_failure_no_cache downEnv 0 [] "services" "a" (by decide) (Or.inl rfl)

/-- C7: with no live cache entry for `settings:global`, a failed fetch makes
`loadSettings` return `null` and write nothing, while a fetched (non-empty)
file whose YAML block fails to deserialize makes it return the empty object
`{}` — not `null` — and cache that empty object under `settings:global`. -/
theorem loadSettings_fallback (envA envB : Env) (now : Nat) (cache : Cache) (t : String)
    (hmiss : truthy (getCached now cache "settings:global").1 = false)
    (hA : envA.fetchFile settingsPath = none)
    (hB : envB.fetchFile settingsPath = some t)
    (ht : t ≠ "")
    (hyaml : envB.yamlLoad t = Except.error ()) :
    loadSettings envA now cache
      = (Value.vNull, (getCached now cache "settings:global").2)
    ∧ (loadSettings envB now cache).1 = Value.vObj []
    ∧ lookupKey (loadSettings envB now cache).2 "settings:global"
        = some ⟨Value.vObj [], now⟩ := by
  refine ⟨?_, ?_, ?_⟩
  · simp [loadSettings, hmiss, hA]
  · simp [loadSettings, hmiss, hB, ht, yamlOrEmpty, hyaml]
  · simp [loadSettings, hmiss, hB, ht, yamlOrEmpty, hyaml, lookupKey_setCached]

/-- An environment whose settings file fetches to a malformed YAML text. -/
def badSettingsEnv : Env :=
  { fetchFile := fun p => if p = settingsPath then some ": :" else none
    listFiles := fun _ => []
    yamlLoad := fun _ => Except.error ()
    marked := none }

/-- Witness for C7: unfetchable settings yield `null`; malformed settings
yield a cached `{}`. -/
theorem loadSettings_fallback_witness :
    loadSettings downEnv 0 [] = (Value.vNull, (getCached 0 [] "settings:global").2)
    ∧ (loadSettings badSettingsEnv 0 []).1 = Value.vObj []
    ∧ lookupKey (loadSettings badSettingsEnv 0 []).2 "settings:global"
        = some ⟨Value.vObj [], 0⟩ :=
  loadSettings_fallback downEnv badSettingsEnv 0 [] ": :"
    (by decide) rfl (by decide) (by decide) rfl

/-- C9: a successfully fetched but empty text is treated exactly like a
fetch failure — `if (!content)` tests falsiness, and `""` is falsy — so both
`loadContent` and `loadSettings` return `null` and write no cache entry. -/
theorem empty_content_like_failure (env : Env) (now : Nat) (cache : Cache)
    (collection slug : String)
    (hm1 : truthy (getCached now cache (collection ++ ":" ++ slug)).1 = false)
    (hm2 : truthy (getCached now cache "settings:global").1 = false)
    (hc : env.fetchFile (contentPath collection slug) = some "")
    (hs : env.fetchFile settingsPath = some "") :
    loadContent env now cache collection slug
      = (Value.vNull, (getCached now cache (collection ++ ":" ++ slug)).2)
    ∧ loadSettings env now cache
      = (Value.vNull, (getCached now cache "settings:global").2) := by
  constructor
  · simp [loadContent, hm1, hc]
  · simp [loadSettings, hm2, hs]

/-- An environment in which every fetch succeeds with the empty string. -/
def emptyFetchEnv : Env :=
  { fetchFile := fun _ => some ""
    listFiles := fun _ => []
    yamlLoad := fun _ => Except.error ()
    marked := none }

/-- Witness for C9: empty fetched texts yield `null` from both loaders
against an empty cache. -/
theorem empty_content_like_failure_witness :
    loadContent emptyFetchEnv 0 [] "services" "a"
      = (Value.vNull, (getCached 0 [] ("services" ++ ":" ++ "a")).2)
    ∧ loadSettings emptyFetchEnv 0 []
      = (Value.vNull, (getCached 0 [] "settings:global").2) :=
  empty_content_like_failure emptyFetchEnv 0 [] "services" "a"
    (by decide) (by decide) rfl rfl

theorem objGet_objSet_self (fs : List (String × Value)) (k : String) (v : Value) :
    objGet (objSet fs k v) k = some v := by
  induction fs with
  | nil => simp [objSet, objGet]
  | cons p rest ih =>
    obtain ⟨k', v'⟩ := p
    cases hbeq : (k' == k) with
    | true => simp [objSet, hbeq, objGet]
    | false => simpa [objSet, hbeq, objGet] using ih

theorem objGet_objSet_ne (fs : List (String × Value)) (k k' : String) (v : Value)
    (hne : k' ≠ k) : objGet (objSet fs k v) k' = objGet fs k' := by
  have hbf : (k == k') = false := beq_eq_false_iff_ne.mpr (fun h => hne h.symm)
  induction fs with
  | nil => simp [objSet, objGet, hbf]
  | cons p rest ih =>
    obtain ⟨k'', v''⟩ := p
    cases hbeq : (k'' == k) with
    | true =>
      have : k'' = k := eq_of_beq hbeq
      subst this
      simp [objSet, hbeq, objGet, hbf]
    | false =>
      cases hbeq2 : (k'' == k') with
      | true => simp [objSet, hbeq, objGet, hbeq2]
      | false => simpa [objSet, hbeq, objGet, hbeq2] using ih

/-- C8: a successfully loaded ContentRecord consists of the frontmatter's
fields copied first and the derived `body` (rendered markdown), `rawBody`
(unrendered body), `collection` and `slug` added after, so those four keys
hold the derived values even when the frontmatter declared them, and every
other frontmatter field is carried over unchanged. -/
theorem loadContent_merge (env : Env) (now : Nat) (cache : Cache)
    (collection slug t : String)
    (hmiss : truthy (getCached now cache (collection ++ ":" ++ slug)).1 = false)
    (hfetch : env.fetchFile (contentPath collection slug) = some t)
    (ht : t ≠ "")
    (hperr : (parseFrontmatter env.yamlLoad t).error = none) :
    ∃ fs, (loadContent env now cache collection slug).1 = Value.vObj fs
      ∧ objGet fs "body"
          = some (Value.vStr (parseMarkdown env (parseFrontmatter env.yamlLoad t).body))
      ∧ objGet fs "rawBody"
          = some (Value.vStr (parseFrontmatter env.yamlLoad t).body)
      ∧ objGet fs "collection" = some (Value.vStr collection)
      ∧ objGet fs "slug" = some (Value.vStr slug)
      ∧ ∀ k, k ≠ "body" → k ≠ "rawBody" → k ≠ "collection" → k ≠ "slug" →
          objGet fs k
            = objGet (spreadFields (parseFrontmatter env.yamlLoad t).frontmatter) k := by
  refine ⟨objSet (objSet (objSet (objSet
      (spreadFields (parseFrontmatter env.yamlLoad t).frontmatter)
      "body" (Value.vStr (parseMarkdown env (parseFrontmatter env.yamlLoad t).body)))
      "rawBody" (Value.vStr (parseFrontmatter env.yamlLoad t).body))
      "collection" (Value.vStr collection))
      "slug" (Value.vStr slug), ?_, ?_, ?_, ?_, ?_, ?_⟩
  · simp [loadContent, hmiss, hfetch, ht, hperr, buildRecord]
  · rw [objGet_objSet_ne _ _ _ _ (by decide), objGet_objSet_ne _ _ _ _ (by decide),
      objGet_objSet_ne _ _ _ _ (by decide), objGet_objSet_self]
  · rw [objGet_objSet_ne _ _ _ _ (by decide), objGet_objSet_ne _ _ _ _ (by decide),
      objGet_objSet_self]
  · rw [objGet_objSet_ne _ _ _ _ (by decide), objGet_objSet_self]
  · rw [objGet_objSet_self]
  · intro k hk1 hk2 hk3 hk4
    rw [objGet_objSet_ne _ _ _ _ hk4, objGet_objSet_ne _ _ _ _ hk3,
      objGet_objSet_ne _ _ _ _ hk2, objGet_objSet_ne _ _ _ _ hk1]

/-- The two documents of the collection scenario used by the witnesses:
`a` carries `active: false`, `b` has no `active` field, `c` fails to fetch. -/
def docActiveFalse : String := "---\nactive: false\n---\nA"

/-- The plain document of the witness scenario. -/
def docPlain : String := "---\ntitle: B\n---\nB body"

/-- The environment of the witness collection scenario: listing
`["a.md", "b.md", "c.md"]` under `/content/items/`, with `a` inactive, `b`
plain and `c` unfetchable. -/
def demoEnv : Env :=
  { fetchFile := fun p =>
      if p = "/content/items/b.md" then some docPlain
      else if p = "/content/items/a.md" then some docActiveFalse
      else none
    listFiles := fun p => if p = "/content/items/" then ["a.md", "b.md", "c.md"] else []
    yamlLoad := fun s =>
      if s = "active: false" then Except.ok (Value.vObj [("active", Value.vBool false)])
      else if s = "title: B" then Except.ok (Value.vObj [("title", Value.vStr "B")])
      else Except.error ()
    marked := none }

/-- Witness for C8: loading `items/b` in the demo environment produces a
record with the derived fields and the `title` frontmatter field. -/
theorem loadContent_merge_witness :
    ∃ fs, (loadContent demoEnv 0 [] "items" "b").1 = Value.vObj fs
      ∧ objGet fs "body"
          = some (Value.vStr (parseMarkdown demoEnv
              (parseFrontmatter demoEnv.yamlLoad docPlain).body))
      ∧ objGet fs "rawBody"
          = some (Value.vStr (parseFrontmatter demoEnv.yamlLoad docPlain).body)
      ∧ objGet fs "collection" = some (Value.vStr "items")
      ∧ objGet fs "slug" = some (Value.vStr "b")
      ∧ ∀ k, k ≠ "body" → k ≠ "rawBody" → k ≠ "collection" → k ≠ "slug" →
          objGet fs k
            = objGet (spreadFields
                (parseFrontmatter demoEnv.yamlLoad docPlain).frontmatter) k :=
  loadContent_merge demoEnv 0 [] "items" "b" docPlain
    (by decide) (by decide) (by decide) (by decide)

/-- Whether `pat` occurs as a contiguous substring of a character list. -/
def hasSubstr (pat : List Char) : List Char → Bool
  | [] => pat.isEmpty
  | c :: cs => pat.isPrefixOf (c :: cs) || hasSubstr pat cs

theorem mdPat_prefixOf_append (q : List Char)
    (h : mdPat.isPrefixOf (q ++ mdPat) = true) :
    q = [] ∨ mdPat.isPrefixOf q = true := by
  match q with
  | [] => exact Or.inl rfl
  | [a] =>
    exfalso
    obtain ⟨t, ht⟩ := List.isPrefixOf_iff_prefix.mp h
    simp only [mdPat, List.cons_append, List.nil_append, List.cons.injEq] at ht
    exact absurd ht.2.1 (by decide)
  | [a, b] =>
    exfalso
    obtain ⟨t, ht⟩ := List.isPrefixOf_iff_prefix.mp h
    simp only [mdPat, List.cons_append, List.nil_append, List.cons.injEq] at ht
    exact absurd ht.2.2.1 (by decide)
  | a :: b :: c :: q' =>
    right
    simp only [mdPat, List.cons_append, List.isPrefixOf, Bool.and_eq_true] at h ⊢
    exact ⟨h.1, h.2.1, h.2.2.1, trivial⟩

theorem replaceFirstL_strip (p : List Char) (h : hasSubstr mdPat p = false) :
    replaceFirstL mdPat [] (p ++ mdPat) = p := by
  induction p with
  | nil => decide
  | cons c p' ih =>
    rw [hasSubstr, Bool.or_eq_false_iff] at h
    obtain ⟨hnp, hr⟩ := h
    rw [List.cons_append, replaceFirstL]
    have hcond : mdPat.isPrefixOf (c :: (p' ++ mdPat)) = false := by
      by_contra hc
      rcases mdPat_prefixOf_append (c :: p')
          (by simpa using Bool.of_not_eq_false hc) with h0 | hpre
      · exact absurd h0 (by simp)
      · rw [hpre] at hnp; exact absurd hnp (by simp)
    rw [hcond]
    simp [ih hr]

/-- The slug the claim describes, following the spec's words: the kept file
name with its `.md` extension stripped. -/
def specSlug (file : String) : String :=
  String.mk (file.data.take (file.data.length - 3))

/-- C4 counterexample: the directory entry `"a.mdb.md"` ends in `.md` and is
kept by `loadCollection`, but the slug the code derives for it is `"ab.md"`
— `file.replace('.md', '')` removes the FIRST occurrence of `.md` — not the
extension-stripped name `"a.mdb"` the claim describes. -/
theorem collectionSlug_counterexample :
    endsWithMd "a.mdb.md" = true
    ∧ collectionSlug "a.mdb.md" = "ab.md"
    ∧ specSlug "a.mdb.md" = "a.mdb"
    ∧ collectionSlug "a.mdb.md" ≠ specSlug "a.mdb.md" :=
  ⟨by decide, by decide, by decide, by decide⟩

/-- C4 amended: the slug `loadCollection` loads a kept file under is the
file name with the first occurrence of `.md` removed; whenever `.md` occurs
nowhere before the final extension — every realistic file name — this equals
the file name with the extension stripped, as the claim states. -/
theorem collectionSlug_strips_extension (file : String) (p : List Char)
    (hdecomp : file.data = p ++ mdPat)
    (huniq : hasSubstr mdPat p = false) :
    endsWithMd file = true
    ∧ collectionSlug file = String.mk p
    ∧ collectionSlug file = specSlug file := by
  have hslug : collectionSlug file = String.mk p := by
    unfold collectionSlug
    rw [hdecomp, replaceFirstL_strip p huniq]
  refine ⟨?_, hslug, ?_⟩
  · unfold endsWithMd
    rw [hdecomp]
    exact List.isSuffixOf_iff_suffix.mpr ⟨p, rfl⟩
  · rw [hslug]
    unfold specSlug
    rw [hdecomp]
    simp [mdPat]

/-- Witness for the amended C4 at the single-extension file `"intro.md"`. -/
theorem collectionSlug_strips_extension_witness :
    endsWithMd "intro.md" = true
    ∧ collectionSlug "intro.md" = String.mk ['i', 'n', 't', 'r', 'o']
    ∧ collectionSlug "intro.md" = specSlug "intro.md" :=
  collectionSlug_strips_extension "intro.md" ['i', 'n', 't', 'r', 'o']
    (by decide) (by decide)

/-- C5: on a cache miss `loadCollection` returns exactly the successfully
loaded records whose `active` field is not literally `false`: a value is in
the returned sequence iff it is one of the settled per-document load
results, is a present (truthy) record, and passes `active !== false` (so
`active: false` is excluded while `active: true` or a missing `active` is
kept); and a document whose fetch and frontmatter parse succeed — in
particular one carrying `active: false` — is still individually loadable via
`loadContent`, which returns a present record for it. -/
theorem loadCollection_active (env : Env) (now : Nat) (cache : Cache)
    (collection : String) (v : Value)
    (hmiss : truthy (getCached now cache ("collection:" ++ collection)).1 = false)
    (env' : Env) (now' : Nat) (cache' : Cache) (c' s' t' : String)
    (hmiss' : truthy (getCached now' cache' (c' ++ ":" ++ s')).1 = false)
    (hfetch' : env'.fetchFile (contentPath c' s') = some t')
    (ht' : t' ≠ "")
    (hperr' : (parseFrontmatter env'.yamlLoad t').error = none) :
    (∃ items, (loadCollection env now cache collection).1 = Value.vArr items
      ∧ (v ∈ items ↔ truthy v = true ∧ activeNotFalse v = true
          ∧ v ∈ (collectionFold env now collection
              ((env.listFiles (baseUrl ++ collection ++ "/")).filter endsWithMd)
              (getCached now cache ("collection:" ++ collection)).2).1))
    ∧ truthy (loadContent env' now' cache' c' s').1 = true := by
  constructor
  · refine ⟨settledItems (collectionFold env now collection
        ((env.listFiles (baseUrl ++ collection ++ "/")).filter endsWithMd)
        (getCached now cache ("collection:" ++ collection)).2).1, ?_, ?_⟩
    · simp [loadCollection, hmiss]
    · simp only [settledItems, List.mem_filter]
      tauto
  · have hres : (loadContent env' now' cache' c' s').1
        = buildRecord (parseFrontmatter env'.yamlLoad t').frontmatter
            (parseMarkdown env' (parseFrontmatter env'.yamlLoad t').body)
            (parseFrontmatter env'.yamlLoad t').body c' s' := by
      simp [loadContent, hmiss', hfetch', ht', hperr']
    rw [hres]
    simp [buildRecord, truthy]

/-- The record `loadContent` builds for `items/a` in the demo environment. -/
def recA : Value :=
  Value.vObj [("active", Value.vBool false), ("body", Value.vStr "A"),
    ("rawBody", Value.vStr "A"), ("collection", Value.vStr "items"),
    ("slug", Value.vStr "a")]

/-- The record `loadContent` builds for `items/b` in the demo environment. -/
def recB : Value :=
  Value.vObj [("title", Value.vStr "B"), ("body", Value.vStr "B body"),
    ("rawBody", Value.vStr "B body"), ("collection", Value.vStr "items"),
    ("slug", Value.vStr "b")]

/-- Witness for C5 in the demo environment, with the inactive document
`items/a` as the individually loadable one. -/
theorem loadCollection_active_witness :
    (∃ items, (loadCollection demoEnv 0 [] "items").1 = Value.vArr items
      ∧ (recB ∈ items ↔ truthy recB = true ∧ activeNotFalse recB = true
          ∧ recB ∈ (collectionFold demoEnv 0 "items"
              ((demoEnv.listFiles (baseUrl ++ "items" ++ "/")).filter endsWithMd)
              (getCached 0 [] ("collection:" ++ "items")).2).1))
    ∧ truthy (loadContent demoEnv 0 [] "items" "a").1 = true :=
  loadCollection_active demoEnv 0 [] "items" recB (by decide)
    demoEnv 0 [] "items" "a" docActiveFalse (by decide) (by decide) (by decide)
    (by decide)

/-- C6: partial failure tolerance — on a miss `loadCollection` always
returns an array (no failure propagates to the caller), and every settled
per-document result that is a present record without `active: false` is in
that array even when other documents of the listing failed to load; in
particular the result is then not the empty sequence. -/
theorem loadCollection_partial_tolerance (env : Env) (now : Nat) (cache : Cache)
    (collection : String) (v : Value)
    (hmiss : truthy (getCached now cache ("collection:" ++ collection)).1 = false)
    (hv : v ∈ (collectionFold env now collection
        ((env.listFiles (baseUrl ++ collection ++ "/")).filter endsWithMd)
        (getCached now cache ("collection:" ++ collection)).2).1)
    (htv : truthy v = true) (hav : activeNotFalse v = true) :
    ∃ items cache₂,
      loadCollection env now cache collection = (Value.vArr items, cache₂)
      ∧ v ∈ items ∧ items ≠ [] := by
  have hmem : v ∈ settledItems (collectionFold env now collection
      ((env.listFiles (baseUrl ++ collection ++ "/")).filter endsWithMd)
      (getCached now cache ("collection:" ++ collection)).2).1 :=
    List.mem_filter.mpr ⟨List.mem_filter.mpr ⟨hv, htv⟩, hav⟩
  refine ⟨settledItems (collectionFold env now collection
      ((env.listFiles (baseUrl ++ collection ++ "/")).filter endsWithMd)
      (getCached now cache ("collection:" ++ collection)).2).1,
    setCached now (collectionFold env now collection
      ((env.listFiles (baseUrl ++ collection ++ "/")).filter endsWithMd)
      (getCached now cache ("collection:" ++ collection)).2).2
      ("collection:" ++ collection)
      (Value.vArr (settledItems (collectionFold env now collection
        ((env.listFiles (baseUrl ++ collection ++ "/")).filter endsWithMd)
        (getCached now cache ("collection:" ++ collection)).2).1)), ?_, ?_, ?_⟩
  · simp [loadCollection, hmiss]
  · exact hmem
  · exact List.ne_nil_of_mem hmem

/-- Witness for C6: in the demo environment `c.md` fails to fetch, yet
`loadCollection` still delivers `items/b`'s record. -/
theorem loadCollection_partial_tolerance_witness :
    ∃ items cache₂,
      loadCollection demoEnv 0 [] "items" = (Value.vArr items, cache₂)
      ∧ recB ∈ items ∧ items ≠ [] :=
  loadCollection_partial_tolerance demoEnv 0 [] "items" recB (by decide)
    (show recB ∈ [recA, recB, Value.vNull] from
      List.mem_cons_of_mem _ (List.mem_cons_self _ _))
    (by decide) (by decide)

theorem loadCollection_hit (env : Env) (now : Nat) (cache : Cache)
    (collection : String) (items : List Value) (ts : Nat)
    (hlook : lookupKey cache ("collection:" ++ collection)
      = some ⟨Value.vArr items, ts⟩)
    (hfresh : (now : Int) - (ts : Int) ≤ (cacheTime : Int)) :
    loadCollection env now cache collection = (Value.vArr items, cache) := by
  have hget : getCached now cache ("collection:" ++ collection)
      = (Value.vArr items, cache) := by
    simp [getCached, hlook, not_lt.mpr hfresh]
  simp [loadCollection, hget, truthy]

/-- C10: on a miss `loadCollection` caches its result array — also when it
is empty — and at any later time within the TTL a second `loadCollection`
call, under ANY environment (hence with no re-listing and no re-fetching),
returns the cached array and leaves the cache unchanged.  By contrast
`loadContent` never caches an absent result: whenever it returns `null`,
its final cache is exactly what its initial `getCached` read left behind. -/
theorem loadCollection_caches_empty (env env₂ : Env) (now now₂ : Nat)
    (cache : Cache) (collection : String)
    (hmiss : truthy (getCached now cache ("collection:" ++ collection)).1 = false)
    (hfresh : (now₂ : Int) - (now : Int) ≤ (cacheTime : Int))
    (env' : Env) (now' : Nat) (cache' : Cache) (c' s' : String)
    (hnull : (loadContent env' now' cache' c' s').1 = Value.vNull) :
    (∃ items, (loadCollection env now cache collection).1 = Value.vArr items
      ∧ lookupKey (loadCollection env now cache collection).2
          ("collection:" ++ collection) = some ⟨Value.vArr items, now⟩
      ∧ loadCollection env₂ now₂ (loadCollection env now cache collection).2
          collection
          = (Value.vArr items, (loadCollection env now cache collection).2))
    ∧ (loadContent env' now' cache' c' s').2
        = (getCached now' cache' (c' ++ ":" ++ s')).2 := by
  constructor
  · have h1 : loadCollection env now cache collection
        = (Value.vArr (settledItems (collectionFold env now collection
            ((env.listFiles (baseUrl ++ collection ++ "/")).filter endsWithMd)
            (getCached now cache ("collection:" ++ collection)).2).1),
          setCached now (collectionFold env now collection
            ((env.listFiles (baseUrl ++ collection ++ "/")).filter endsWithMd)
            (getCached now cache ("collection:" ++ collection)).2).2
            ("collection:" ++ collection)
            (Value.vArr (settledItems (collectionFold env now collection
              ((env.listFiles (baseUrl ++ collection ++ "/")).filter endsWithMd)
              (getCached now cache ("collection:" ++ collection)).2).1))) := by
      simp [loadCollection, hmiss]
    have hlook : lookupKey (loadCollection env now cache collection).2
        ("collection:" ++ collection)
        = some ⟨Value.vArr (settledItems (collectionFold env now collection
            ((env.listFiles (baseUrl ++ collection ++ "/")).filter endsWithMd)
            (getCached now cache ("collection:" ++ collection)).2).1), now⟩ := by
      rw [h1]; exact lookupKey_setCached _ _ _ _
    refine ⟨settledItems (collectionFold env now collection
        ((env.listFiles (baseUrl ++ collection ++ "/")).filter endsWithMd)
        (getCached now cache ("collection:" ++ collection)).2).1,
      by rw [h1], hlook, ?_⟩
    exact loadCollection_hit env₂ now₂ _ collection _ now hlook hfresh
  · by_cases htr : truthy (getCached now' cache' (c' ++ ":" ++ s')).1 = true
    · exfalso
      have hres : (loadContent env' now' cache' c' s').1
          = (getCached now' cache' (c' ++ ":" ++ s')).1 := by
        simp [loadContent, htr]
      rw [← hres, hnull] at htr
      simp [truthy] at htr
    · have htr' : truthy (getCached now' cache' (c' ++ ":" ++ s')).1 = false := by
        simpa using htr
      cases hf : env'.fetchFile (contentPath c' s') with
      | none => simp [loadContent, htr', hf]
      | some t =>
        by_cases hts : t = ""
        · simp [loadContent, htr', hf, hts]
        · cases he : (parseFrontmatter env'.yamlLoad t).error with
          | some msg => simp [loadContent, htr', hf, hts, he]
          | none =>
            exfalso
            have hres : (loadContent env' now' cache' c' s').1
                = buildRecord (parseFrontmatter env'.yamlLoad t).frontmatter
                    (parseMarkdown env' (parseFrontmatter env'.yamlLoad t).body)
                    (parseFrontmatter env'.yamlLoad t).body c' s' := by
              simp [loadContent, htr', hf, hts, he]
            rw [hres] at hnull
            exact absurd hnull (by simp [buildRecord])

/-- Witness for C10: an empty-listing environment caches the empty array,
and a later call under the (different) demo environment returns it
unchanged; the failing `loadContent` call writes nothing. -/
theorem loadCollection_caches_empty_witness :
    (∃ items, (loadCollection downEnv 0 [] "items").1 = Value.vArr items
      ∧ lookupKey (loadCollection downEnv 0 [] "items").2
          ("collection:" ++ "items") = some ⟨Value.vArr items, 0⟩
      ∧ loadCollection demoEnv 100 (loadCollection downEnv 0 [] "items").2 "items"
          = (Value.vArr items, (loadCollection downEnv 0 [] "items").2))
    ∧ (loadContent downEnv 0 [] "x" "y").2 = (getCached 0 [] ("x" ++ ":" ++ "y")).2 :=
  loadCollection_caches_empty downEnv demoEnv 0 100 [] "items" (by decide) (by decide)
    downEnv 0 [] "x" "y" rfl

end CMSLoader
